import Mathlib

/-
Verification of the use-await task coordinator (src/index.ts, useAwaitData).

The hook is a single-slot latest-wins async-task coordinator.  Its mutable
state, shared across renders, consists of:

  - tasks            : Map<AsyncTask, Status>     (the registry, keyed by the
                       identity of the task function; modelled as an
                       association list with Nat keys standing for task
                       function identities)
  - resultRef        : the published Result snapshot
  - staleTaskRef     : handle of the most recently started run
  - staleAbortControllerRef : its AbortController
  - per-run AbortControllers (one per dependency generation)

Each invocation of the start useMemo (index.ts lines 143-192) is one run.
Runs are numbered 0, 1, 2, ... in start order; a run r has a task-function
handle (runs.get? r).  The closures onfulfilled / onrejected / tick / abort
of run r capture that run handle and that run AbortController, which the
model threads through explicitly.

Events model the externally triggered operations: a (re)start by the
collaborator, an invocation of some run abort closure, and the settlement of
some run body promise (with a value, or with a failure reason that is either
one of the internal sentinels symbolInvalidate / symbolAborted or a genuine
user error).  rerender() invocations are counted in notifyCount.

The fields evicted and abortFired are history (ghost) variables: evicted
records the runs whose AbortController was triggered by a later start
(index.ts line 188), abortFired records the runs whose own abort closure
fired while their handle was registered as running (index.ts lines 122-128).
They let round-trip properties about the cancellation signal be stated.
-/

namespace UseAwait

/-- Registry status values, as stored in the tasks Map. -/
inductive Status where
  | running
  | fulfilled
  | rejected
  | aborted
deriving DecidableEq

/-- The published Result snapshot.  The running variant carries the id of
the run whose abort closure it holds (in the source, the closure over that
render task and abortController). -/
inductive Result (V E : Type) where
  | running (run : Nat)
  | fulfilled (value : V)
  | rejected (error : E)
  | aborted
deriving DecidableEq

/-- A failure reason delivered to onrejected: one of the two internal
sentinel symbols, or a genuine user error. -/
inductive Reason (E : Type) where
  | invalidate
  | abortedSignal
  | user (e : E)
deriving DecidableEq

/-- Outcome of a tick (checkpoint) call: resolve to the tick function
itself, reject with symbolInvalidate, or reject with symbolAborted. -/
inductive TickOutcome where
  | ok
  | invalidated
  | aborted
deriving DecidableEq

/-- Map.get on the registry. -/
def regGet (reg : List (Nat × Status)) (h : Nat) : Option Status :=
  (reg.find? (fun p => p.1 == h)).map (fun p => p.2)

/-- Map.set on the registry (keys stay distinct). -/
def regSet (reg : List (Nat × Status)) (h : Nat) (st : Status) :
    List (Nat × Status) :=
  reg.filter (fun p => p.1 != h) ++ [(h, st)]

/-- Map.delete on the registry. -/
def regDelete (reg : List (Nat × Status)) (h : Nat) : List (Nat × Status) :=
  reg.filter (fun p => p.1 != h)

/-- The shared mutable state of the hook, plus run bookkeeping and the two
ghost history fields described above. -/
structure State (V E : Type) where
  reg : List (Nat × Status)
  snapshot : Result V E
  notifyCount : Nat
  runs : List Nat
  staleTask : Option Nat
  staleCtrl : Option Nat
  ctrlAborted : List Nat
  evicted : List Nat
  abortFired : List Nat
deriving DecidableEq

/-- State before the first start: empty registry, no runs, initial snapshot
running (resultRef initializer, index.ts lines 130-133). -/
def initState {V E : Type} : State V E :=
  { reg := []
    snapshot := Result.running 0
    notifyCount := 0
    runs := []
    staleTask := none
    staleCtrl := none
    ctrlAborted := []
    evicted := []
    abortFired := [] }

/-- One execution of the start useMemo (index.ts lines 143-192) with task
handle h: publish the running snapshot and insert the handle as running
(updateResult, line 184), delete the stale handle entry if set (line 186),
trigger the stale AbortController if set (line 188), update both stale refs,
and hand the scheduler to the new body (which is run id = previous number of
runs).  rerender is not called. -/
def startStep {V E : Type} (h : Nat) (s : State V E) : State V E :=
  let newRun := s.runs.length
  let reg1 := regSet s.reg h Status.running
  let reg2 :=
    match s.staleTask with
    | some h0 => regDelete reg1 h0
    | none => reg1
  let aborted2 :=
    match s.staleCtrl with
    | some r0 => r0 :: s.ctrlAborted
    | none => s.ctrlAborted
  let evicted2 :=
    match s.staleCtrl with
    | some r0 => r0 :: s.evicted
    | none => s.evicted
  { reg := reg2
    snapshot := Result.running newRun
    notifyCount := s.notifyCount
    runs := s.runs ++ [h]
    staleTask := some h
    staleCtrl := some newRun
    ctrlAborted := aborted2
    evicted := evicted2
    abortFired := s.abortFired }

/-- Invocation of run r abort closure (index.ts lines 122-128): if the
captured handle currently maps to running, publish the aborted snapshot,
set the registry entry to aborted, trigger the run own AbortController and
rerender; otherwise do nothing. -/
def requestAbortStep {V E : Type} (r : Nat) (s : State V E) : State V E :=
  match s.runs.get? r with
  | none => s
  | some h =>
    if regGet s.reg h = some Status.running then
      { s with
        snapshot := Result.aborted
        reg := regSet s.reg h Status.aborted
        notifyCount := s.notifyCount + 1
        ctrlAborted := r :: s.ctrlAborted
        abortFired := r :: s.abortFired }
    else s

/-- Run r body fulfills with value v; onfulfilled (index.ts lines 144-154):
if the captured handle is absent from the registry or maps to aborted,
discard; otherwise publish fulfilled and rerender. -/
def settleOkStep {V E : Type} (r : Nat) (v : V) (s : State V E) : State V E :=
  match s.runs.get? r with
  | none => s
  | some h =>
    match regGet s.reg h with
    | none => s
    | some Status.aborted => s
    | some _ =>
      { s with
        snapshot := Result.fulfilled v
        reg := regSet s.reg h Status.fulfilled
        notifyCount := s.notifyCount + 1 }

/-- Run r body rejects with the given reason; onrejected (index.ts lines
155-165): the two sentinel symbols are swallowed, any other reason is
published as rejected, verbatim, with a rerender.  The registry is not
consulted. -/
def settleErrStep {V E : Type} (r : Nat) (reason : Reason E) (s : State V E) :
    State V E :=
  match s.runs.get? r with
  | none => s
  | some h =>
    match reason with
    | Reason.invalidate => s
    | Reason.abortedSignal => s
    | Reason.user e =>
      { s with
        snapshot := Result.rejected e
        reg := regSet s.reg h Status.rejected
        notifyCount := s.notifyCount + 1 }

/-- Outcome of a tick call by run r (index.ts lines 167-179): reject with
symbolInvalidate when the captured handle is absent, reject with
symbolAborted when it maps to aborted, otherwise resolve to the tick
function itself.  none when the run does not exist. -/
def tickResult {V E : Type} (r : Nat) (s : State V E) : Option TickOutcome :=
  match s.runs.get? r with
  | none => none
  | some h =>
    match regGet s.reg h with
    | none => some TickOutcome.invalidated
    | some Status.aborted => some TickOutcome.aborted
    | some _ => some TickOutcome.ok

/-- Externally triggered operations on the coordinator. -/
inductive Event (V E : Type) where
  | start (handle : Nat)
  | requestAbort (run : Nat)
  | settleOk (run : Nat) (value : V)
  | settleErr (run : Nat) (reason : Reason E)
deriving DecidableEq

/-- Interpret one event. -/
def step {V E : Type} (e : Event V E) (s : State V E) : State V E :=
  match e with
  | Event.start h => startStep h s
  | Event.requestAbort r => requestAbortStep r s
  | Event.settleOk r v => settleOkStep r v s
  | Event.settleErr r reason => settleErrStep r reason s

/-- Interpret a list of events in order. -/
def steps {V E : Type} (s : State V E) (evs : List (Event V E)) : State V E :=
  evs.foldl (fun t e => step e t) s

/-- The state after a list of events from the initial state. -/
def stateAfter {V E : Type} (evs : List (Event V E)) : State V E :=
  steps initState evs

/-- A state is reachable when some event sequence produces it. -/
def Reachable {V E : Type} (s : State V E) : Prop :=
  ∃ evs, s = stateAfter evs

theorem steps_cons {V E : Type} (s : State V E) (e : Event V E)
    (evs : List (Event V E)) : steps s (e :: evs) = steps (step e s) evs :=
  rfl

theorem find?_filter_imp {α : Type} (p q : α → Bool) (l : List α)
    (hpq : ∀ x, p x = true → q x = true) :
    (l.filter q).find? p = l.find? p := by
  induction l with
  | nil => rfl
  | cons a l ih =>
    cases hqa : q a with
    | true =>
      rw [List.filter_cons_of_pos hqa]
      cases hpa : p a with
      | true => simp [List.find?, hpa]
      | false => simp [List.find?, hpa, ih]
    | false =>
      have hpa : p a = false := by
        cases hpa : p a with
        | true => exact absurd (hpq a hpa) (by simp [hqa])
        | false => rfl
      rw [List.filter_cons_of_neg (by simp [hqa])]
      simp [List.find?, hpa, ih]

theorem regGet_regSet_self (reg : List (Nat × Status)) (h : Nat) (st : Status) :
    regGet (regSet reg h st) h = some st := by
  unfold regGet regSet
  rw [List.find?_append]
  have hnone : (reg.filter (fun p => p.1 != h)).find? (fun p => p.1 == h) = none := by
    rw [List.find?_eq_none]
    intro p hp
    have := (List.mem_filter.mp hp).2
    simp only [bne_iff_ne, ne_eq, decide_eq_true_eq] at this
    simp [this]
  rw [hnone]
  simp [List.find?]

theorem regGet_regSet_ne (reg : List (Nat × Status)) (h h2 : Nat) (st : Status)
    (hne : h2 ≠ h) : regGet (regSet reg h st) h2 = regGet reg h2 := by
  unfold regGet regSet
  rw [List.find?_append]
  have htail : (([(h, st)] : List (Nat × Status)).find? (fun p => p.1 == h2)) = none := by
    have hb : (h == h2) = false := by
      simp [Ne.symm hne]
    simp [List.find?, hb]
  rw [htail]
  rw [find?_filter_imp (fun p => p.1 == h2) (fun p => p.1 != h) reg]
  · cases (reg.find? fun p => p.1 == h2) <;> rfl
  · intro p hp
    simp only [beq_iff_eq] at hp
    simp [hp, hne]

theorem regGet_regDelete_self (reg : List (Nat × Status)) (h : Nat) :
    regGet (regDelete reg h) h = none := by
  unfold regGet regDelete
  have hnone : (reg.filter (fun p => p.1 != h)).find? (fun p => p.1 == h) = none := by
    rw [List.find?_eq_none]
    intro p hp
    have := (List.mem_filter.mp hp).2
    simp only [bne_iff_ne, ne_eq, decide_eq_true_eq] at this
    simp [this]
  rw [hnone]
  rfl

theorem regGet_regDelete_ne (reg : List (Nat × Status)) (h h2 : Nat)
    (hne : h2 ≠ h) : regGet (regDelete reg h) h2 = regGet reg h2 := by
  unfold regGet regDelete
  rw [find?_filter_imp (fun p => p.1 == h2) (fun p => p.1 != h) reg]
  intro p hp
  simp only [beq_iff_eq] at hp
  simp [hp, hne]

theorem mem_regSet {reg : List (Nat × Status)} {h : Nat} {st : Status}
    {p : Nat × Status} (hp : p ∈ regSet reg h st) :
    p = (h, st) ∨ (p ∈ reg ∧ p.1 ≠ h) := by
  unfold regSet at hp
  rcases List.mem_append.mp hp with hp | hp
  · have := List.mem_filter.mp hp
    right
    refine ⟨this.1, ?_⟩
    have := this.2
    simpa [bne_iff_ne] using this
  · left
    simpa using hp

theorem mem_regDelete {reg : List (Nat × Status)} {h : Nat}
    {p : Nat × Status} (hp : p ∈ regDelete reg h) : p ∈ reg ∧ p.1 ≠ h := by
  unfold regDelete at hp
  have := List.mem_filter.mp hp
  refine ⟨this.1, ?_⟩
  have := this.2
  simpa [bne_iff_ne] using this

theorem keys_regSet_nodup (reg : List (Nat × Status)) (h : Nat) (st : Status)
    (hn : (reg.map Prod.fst).Nodup) :
    ((regSet reg h st).map Prod.fst).Nodup := by
  unfold regSet
  rw [List.map_append, List.nodup_append]
  refine ⟨?_, List.nodup_singleton h, ?_⟩
  · exact hn.sublist ((List.filter_sublist reg).map Prod.fst)
  · intro a ha hb
    simp only [List.map_cons, List.map_nil, List.mem_singleton] at hb
    subst hb
    rcases List.mem_map.mp ha with ⟨p, hp, hfst⟩
    have := (List.mem_filter.mp hp).2
    simp only [bne_iff_ne, ne_eq, decide_eq_true_eq] at this
    exact this hfst

theorem keys_regDelete_nodup (reg : List (Nat × Status)) (h : Nat)
    (hn : (reg.map Prod.fst).Nodup) :
    ((regDelete reg h).map Prod.fst).Nodup :=
  hn.sublist ((List.filter_sublist reg).map Prod.fst)

/-- The inductive invariant of reachable coordinator states: registry keys
are distinct, every entry with status running is keyed by the most recently
started handle, the two stale refs are none exactly before the first start
and otherwise describe the latest run, and the AbortController flag of a run
is set exactly when the run was evicted by a later start or its own abort
closure fired. -/
def Inv {V E : Type} (s : State V E) : Prop :=
  ((s.reg.map Prod.fst).Nodup) ∧
  (∀ p ∈ s.reg, p.2 = Status.running → s.staleTask = some p.1) ∧
  (s.runs = [] → s.staleTask = none ∧ s.staleCtrl = none) ∧
  (s.runs ≠ [] → s.staleTask = s.runs.getLast? ∧
    s.staleCtrl = some (s.runs.length - 1)) ∧
  (∀ r, r ∈ s.ctrlAborted ↔ (r ∈ s.evicted ∨ r ∈ s.abortFired))

theorem inv_initState {V E : Type} : Inv (initState (V := V) (E := E)) := by
  refine ⟨?_, ?_, ?_, ?_, ?_⟩ <;> simp [initState]

theorem inv_startStep {V E : Type} (h : Nat) {s : State V E} (hinv : Inv s) :
    Inv (startStep h s) := by
  obtain ⟨hk, hro, _, _, hfs⟩ := hinv
  refine ⟨?_, ?_, ?_, ?_, ?_⟩
  · cases hst : s.staleTask with
    | none => simpa [startStep, hst] using keys_regSet_nodup s.reg h Status.running hk
    | some h0 =>
      simpa [startStep, hst] using
        keys_regDelete_nodup _ h0 (keys_regSet_nodup s.reg h Status.running hk)
  · intro p hp hrun
    cases hst : s.staleTask with
    | none =>
      simp only [startStep, hst] at hp ⊢
      rcases mem_regSet hp with hph | ⟨hpreg, _⟩
      · rw [hph]
      · exact absurd (hro p hpreg hrun) (by simp [hst])
    | some h0 =>
      simp only [startStep, hst] at hp ⊢
      rcases mem_regDelete hp with ⟨hp1, hpne⟩
      rcases mem_regSet hp1 with hph | ⟨hpreg, _⟩
      · rw [hph]
      · have := hro p hpreg hrun
        rw [hst] at this
        exact absurd (Option.some.inj this).symm hpne
  · intro hruns
    exact absurd hruns (by simp [startStep])
  · intro _
    constructor
    · simp [startStep, List.getLast?_concat]
    · simp [startStep]
  · intro r
    cases hsc : s.staleCtrl with
    | none =>
      simp only [startStep, hsc]
      exact hfs r
    | some r0 =>
      simp only [startStep, hsc, List.mem_cons]
      rw [hfs r]
      tauto

theorem inv_publish {V E : Type} {s : State V E} (hinv : Inv s) (h : Nat)
    (st : Status) (hst : st ≠ Status.running)
    (snap : Result V E) (ca af : List Nat)
    (hca : ∀ r2, r2 ∈ ca ↔ (r2 ∈ s.evicted ∨ r2 ∈ af)) :
    Inv { s with
      reg := regSet s.reg h st
      snapshot := snap
      notifyCount := s.notifyCount + 1
      ctrlAborted := ca
      abortFired := af } := by
  obtain ⟨hk, hro, hr1, hr2, _⟩ := hinv
  refine ⟨keys_regSet_nodup s.reg h st hk, ?_, hr1, hr2, hca⟩
  intro p hp hprun
  rcases mem_regSet hp with hph | ⟨hpreg, _⟩
  · rw [hph] at hprun
    exact absurd hprun hst
  · exact hro p hpreg hprun

theorem inv_requestAbortStep {V E : Type} (r : Nat) {s : State V E}
    (hinv : Inv s) : Inv (requestAbortStep r s) := by
  unfold requestAbortStep
  split
  · exact hinv
  split
  · refine inv_publish hinv _ Status.aborted (by simp) Result.aborted _ _ ?_
    intro r2
    simp only [List.mem_cons]
    rw [hinv.2.2.2.2 r2]
    tauto
  · exact hinv

theorem inv_settleOkStep {V E : Type} (r : Nat) (v : V) {s : State V E}
    (hinv : Inv s) : Inv (settleOkStep r v s) := by
  unfold settleOkStep
  split
  · exact hinv
  split
  · exact hinv
  · exact hinv
  · exact inv_publish hinv _ Status.fulfilled (by simp) (Result.fulfilled v) _ _
      (hinv.2.2.2.2)

theorem inv_settleErrStep {V E : Type} (r : Nat) (reason : Reason E)
    {s : State V E} (hinv : Inv s) : Inv (settleErrStep r reason s) := by
  unfold settleErrStep
  split
  · exact hinv
  split
  · exact hinv
  · exact hinv
  · exact inv_publish hinv _ Status.rejected (by simp) (Result.rejected _) _ _
      (hinv.2.2.2.2)

theorem inv_step {V E : Type} (e : Event V E) {s : State V E}
    (hinv : Inv s) : Inv (step e s) := by
  cases e with
  | start h => exact inv_startStep h hinv
  | requestAbort r => exact inv_requestAbortStep r hinv
  | settleOk r v => exact inv_settleOkStep r v hinv
  | settleErr r reason => exact inv_settleErrStep r reason hinv

theorem inv_steps {V E : Type} (evs : List (Event V E)) {s : State V E}
    (hinv : Inv s) : Inv (steps s evs) := by
  induction evs generalizing s with
  | nil => exact hinv
  | cons e evs ih => exact ih (inv_step e hinv)

theorem reachable_inv {V E : Type} {s : State V E} (hs : Reachable s) :
    Inv s := by
  obtain ⟨evs, rfl⟩ := hs
  exact inv_steps evs inv_initState

theorem requestAbortStep_fires {V E : Type} {s : State V E} {r h : Nat}
    (hget : s.runs.get? r = some h)
    (hrun : regGet s.reg h = some Status.running) :
    requestAbortStep r s = { s with
      snapshot := Result.aborted
      reg := regSet s.reg h Status.aborted
      notifyCount := s.notifyCount + 1
      ctrlAborted := r :: s.ctrlAborted
      abortFired := r :: s.abortFired } := by
  simp only [requestAbortStep, hget, hrun, if_pos]

theorem requestAbortStep_skip {V E : Type} {s : State V E} {r h : Nat}
    (hget : s.runs.get? r = some h)
    (hrun : regGet s.reg h ≠ some Status.running) :
    requestAbortStep r s = s := by
  simp only [requestAbortStep, hget, if_neg hrun]

theorem settleOkStep_discard {V E : Type} {s : State V E} {r h : Nat} (v : V)
    (hget : s.runs.get? r = some h)
    (hreg : regGet s.reg h = none ∨ regGet s.reg h = some Status.aborted) :
    settleOkStep r v s = s := by
  rcases hreg with hreg | hreg <;> simp only [settleOkStep, hget, hreg]

theorem settleOkStep_publishes {V E : Type} {s : State V E} {r h : Nat}
    (v : V) {st : Status} (hget : s.runs.get? r = some h)
    (hreg : regGet s.reg h = some st) (hst : st ≠ Status.aborted) :
    settleOkStep r v s = { s with
      snapshot := Result.fulfilled v
      reg := regSet s.reg h Status.fulfilled
      notifyCount := s.notifyCount + 1 } := by
  cases st with
  | aborted => exact absurd rfl hst
  | running => simp only [settleOkStep, hget, hreg]
  | fulfilled => simp only [settleOkStep, hget, hreg]
  | rejected => simp only [settleOkStep, hget, hreg]

theorem settleErrStep_sentinel {V E : Type} {s : State V E} {r : Nat}
    {reason : Reason E}
    (hr : reason = Reason.invalidate ∨ reason = Reason.abortedSignal) :
    settleErrStep r reason s = s := by
  unfold settleErrStep
  rcases hr with rfl | rfl <;> split <;> rfl

theorem settleErrStep_user {V E : Type} {s : State V E} {r h : Nat} (e : E)
    (hget : s.runs.get? r = some h) :
    settleErrStep r (Reason.user e) s = { s with
      snapshot := Result.rejected e
      reg := regSet s.reg h Status.rejected
      notifyCount := s.notifyCount + 1 } := by
  simp only [settleErrStep, hget]

theorem requestAbort_noop {V E : Type} {s : State V E} {r : Nat}
    (hh : ∀ h, s.runs.get? r = some h →
      regGet s.reg h ≠ some Status.running) :
    requestAbortStep r s = s := by
  unfold requestAbortStep
  split
  · rfl
  next h hget => rw [if_neg (hh h hget)]

/-- C2: for a checkpoint (tick) call by any existing run: when the run
handle is absent from the registry the call fails with the Invalidated
sentinel; when the registry status of the handle is aborted it fails with
the Aborted sentinel; in every other case (registry status running,
fulfilled or rejected) it resolves immediately to the checkpoint function
itself (outcome ok). -/
theorem checkpointFidelity {V E : Type} (s : State V E) (r h : Nat)
    (hget : s.runs.get? r = some h) :
    (regGet s.reg h = none → tickResult r s = some TickOutcome.invalidated) ∧
    (regGet s.reg h = some Status.aborted →
      tickResult r s = some TickOutcome.aborted) ∧
    (∀ st, regGet s.reg h = some st → st ≠ Status.aborted →
      tickResult r s = some TickOutcome.ok) := by
  refine ⟨fun hreg => by simp only [tickResult, hget, hreg],
          fun hreg => by simp only [tickResult, hget, hreg],
          fun st hreg hst => ?_⟩
  cases st with
  | aborted => exact absurd rfl hst
  | running => simp only [tickResult, hget, hreg]
  | fulfilled => simp only [tickResult, hget, hreg]
  | rejected => simp only [tickResult, hget, hreg]

/-- Witness for C2: after a restart, the superseded run checkpoint call
fails with Invalidated; for the still-owning running run it resolves. -/
theorem checkpointFidelityWitness :
    tickResult 0 (stateAfter ([Event.start 4, Event.start 9] :
        List (Event Nat Nat))) = some TickOutcome.invalidated ∧
    tickResult 1 (stateAfter ([Event.start 4, Event.start 9] :
        List (Event Nat Nat))) = some TickOutcome.ok :=
  ⟨(checkpointFidelity (stateAfter [Event.start 4, Event.start 9]) 0 4
      (by decide)).1 (by decide),
   (checkpointFidelity (stateAfter [Event.start 4, Event.start 9]) 1 9
      (by decide)).2.2 Status.running (by decide) (by decide)⟩

/-- C3: on settlement of an existing run body, a success value is discarded
(the state, hence snapshot and notifier, is untouched) exactly when the run
handle registry entry is absent or aborted, and otherwise the snapshot
becomes fulfilled with that value and the notifier fires once; a failure
reason is discarded exactly when it is the internal Invalidated or Aborted
sentinel, and otherwise the snapshot becomes rejected carrying the original
failure value unmodified and the notifier fires once. -/
theorem settlementPolicy {V E : Type} (s : State V E) (r h : Nat) (v : V)
    (reason : Reason E) (hget : s.runs.get? r = some h) :
    (settleOkStep r v s = s ↔
      (regGet s.reg h = none ∨ regGet s.reg h = some Status.aborted)) ∧
    ((regGet s.reg h ≠ none ∧ regGet s.reg h ≠ some Status.aborted) →
      (settleOkStep r v s).snapshot = Result.fulfilled v ∧
      (settleOkStep r v s).notifyCount = s.notifyCount + 1) ∧
    (settleErrStep r reason s = s ↔
      (reason = Reason.invalidate ∨ reason = Reason.abortedSignal)) ∧
    (∀ e, reason = Reason.user e →
      (settleErrStep r reason s).snapshot = Result.rejected e ∧
      (settleErrStep r reason s).notifyCount = s.notifyCount + 1) := by
  have hpub : ∀ st, regGet s.reg h = some st → st ≠ Status.aborted →
      (settleOkStep r v s).snapshot = Result.fulfilled v ∧
      (settleOkStep r v s).notifyCount = s.notifyCount + 1 := by
    intro st hreg hst
    rw [settleOkStep_publishes v hget hreg hst]
    exact ⟨rfl, rfl⟩
  refine ⟨⟨?_, settleOkStep_discard v hget⟩, ?_, ⟨?_, settleErrStep_sentinel⟩, ?_⟩
  · intro hs
    by_contra hcond
    push_neg at hcond
    cases hreg : regGet s.reg h with
    | none => exact hcond.1 hreg
    | some st =>
      have hst : st ≠ Status.aborted := by
        intro hab
        exact hcond.2 (hab ▸ hreg)
      have := (hpub st hreg hst).2
      rw [hs] at this
      exact Nat.succ_ne_self s.notifyCount this.symm
  · intro hcond
    cases hreg : regGet s.reg h with
    | none => exact absurd hreg hcond.1
    | some st =>
      refine hpub st hreg ?_
      intro hab
      exact hcond.2 (hab ▸ hreg)
  · intro hs
    cases reason with
    | invalidate => exact Or.inl rfl
    | abortedSignal => exact Or.inr rfl
    | user e =>
      have h2 : s.notifyCount + 1 = s.notifyCount :=
        congrArg State.notifyCount ((settleErrStep_user e hget).symm.trans hs)
      exact (Nat.succ_ne_self s.notifyCount h2).elim
  · rintro e rfl
    rw [settleErrStep_user e hget]
    exact ⟨rfl, rfl⟩

/-- Witness for C3: a running owner run that succeeds publishes fulfilled
and notifies once; the Invalidated sentinel is swallowed; a genuine failure
of the owner publishes the original error. -/
theorem settlementPolicyWitness :
    (settleOkStep 0 11 (stateAfter ([Event.start 4] :
        List (Event Nat Nat)))).snapshot = Result.fulfilled 11 ∧
    settleErrStep 0 (Reason.invalidate)
      (stateAfter ([Event.start 4] : List (Event Nat Nat))) =
      stateAfter ([Event.start 4] : List (Event Nat Nat)) ∧
    (settleErrStep 0 (Reason.user 23) (stateAfter ([Event.start 4] :
        List (Event Nat Nat)))).snapshot = Result.rejected 23 :=
  ⟨((settlementPolicy (stateAfter [Event.start 4]) 0 4 11 Reason.invalidate
      (by decide)).2.1 (by decide)).1,
   ((settlementPolicy (stateAfter [Event.start 4]) 0 4 11 Reason.invalidate
      (by decide)).2.2.1).mpr (Or.inl rfl),
   ((settlementPolicy (stateAfter [Event.start 4]) 0 4 11 (Reason.user 23)
      (by decide)).2.2.2 23 rfl).1⟩

/-- C7: the notifier (rerender) fires exactly once per snapshot mutation
caused by outcome publication or by a successful abort request, and never
fires as part of a start call itself: a start leaves the notify count
unchanged, and each of the other operations either leaves the whole state
unchanged or increments the notify count by exactly one while publishing
the corresponding snapshot. -/
theorem notifyDiscipline {V E : Type} (s : State V E) (h r : Nat) (v : V)
    (reason : Reason E) :
    (startStep h s).notifyCount = s.notifyCount ∧
    (requestAbortStep r s = s ∨
      ((requestAbortStep r s).notifyCount = s.notifyCount + 1 ∧
       (requestAbortStep r s).snapshot = Result.aborted)) ∧
    (settleOkStep r v s = s ∨
      ((settleOkStep r v s).notifyCount = s.notifyCount + 1 ∧
       (settleOkStep r v s).snapshot = Result.fulfilled v)) ∧
    (settleErrStep r reason s = s ∨
      (∃ e, reason = Reason.user e ∧
        (settleErrStep r reason s).notifyCount = s.notifyCount + 1 ∧
        (settleErrStep r reason s).snapshot = Result.rejected e)) := by
  refine ⟨rfl, ?_, ?_, ?_⟩
  · unfold requestAbortStep
    split
    · exact Or.inl rfl
    split
    · exact Or.inr ⟨rfl, rfl⟩
    · exact Or.inl rfl
  · unfold settleOkStep
    split
    · exact Or.inl rfl
    split
    · exact Or.inl rfl
    · exact Or.inl rfl
    · exact Or.inr ⟨rfl, rfl⟩
  · unfold settleErrStep
    split
    · exact Or.inl rfl
    split
    · exact Or.inl rfl
    · exact Or.inl rfl
    next e => exact Or.inr ⟨e, rfl, rfl, rfl⟩

/-- C1: evaluation of the code at the failing input.  After start and a
successful abort request, the snapshot is aborted with one notification;
the aborted run body then rejecting with the genuine error 7 nevertheless
mutates the snapshot to rejected 7 and fires the notifier a second time,
because onrejected (index.ts lines 155-165) never consults the registry.
The last two conjuncts show the same leak for a run evicted by a restart:
its genuine failure also surfaces as rejected 7 with a notification. -/
theorem staleRejectionPublishes :
    (stateAfter ([Event.start 0, Event.requestAbort 0] :
      List (Event Nat Nat))).snapshot = Result.aborted ∧
    (stateAfter ([Event.start 0, Event.requestAbort 0] :
      List (Event Nat Nat))).notifyCount = 1 ∧
    (stateAfter ([Event.start 0, Event.requestAbort 0,
      Event.settleErr 0 (Reason.user 7)] :
      List (Event Nat Nat))).snapshot = Result.rejected 7 ∧
    (stateAfter ([Event.start 0, Event.requestAbort 0,
      Event.settleErr 0 (Reason.user 7)] :
      List (Event Nat Nat))).notifyCount = 2 ∧
    (stateAfter ([Event.start 0, Event.start 1,
      Event.settleErr 0 (Reason.user 7)] :
      List (Event Nat Nat))).snapshot = Result.rejected 7 ∧
    (stateAfter ([Event.start 0, Event.start 1,
      Event.settleErr 0 (Reason.user 7)] :
      List (Event Nat Nat))).notifyCount = 1 := by
  decide

/-- C5 counterexample: a superseded run rejecting with a genuine error
re-inserts its handle into the registry (onrejected does not check
ownership), so after [start 0, start 1, settleErr 0 (user 7)] the registry
holds two entries, refuting the at-most-one-entry bound. -/
theorem registryTwoEntries :
    (stateAfter ([Event.start 0, Event.start 1,
      Event.settleErr 0 (Reason.user 7)] : List (Event Nat Nat))).reg =
      [(1, Status.running), (0, Status.rejected)] ∧
    ¬ (stateAfter ([Event.start 0, Event.start 1,
      Event.settleErr 0 (Reason.user 7)] :
        List (Event Nat Nat))).reg.length ≤ 1 := by
  decide

/-- C5 (amended): in every reachable state at most one handle has registry
status running (the full at-most-one-entry bound fails, because a
superseded run rejecting with a non-sentinel reason re-inserts a settled
entry for its handle). -/
theorem atMostOneRunning {V E : Type} {s : State V E} (hs : Reachable s) :
    (s.reg.filter (fun p => p.2 == Status.running)).length ≤ 1 := by
  obtain ⟨hk, hro, -, -, -⟩ := reachable_inv hs
  have hall : ∀ p ∈ s.reg.filter (fun p => p.2 == Status.running),
      s.staleTask = some p.1 := by
    intro p hp
    have hm := List.mem_filter.mp hp
    refine hro p hm.1 ?_
    have := hm.2
    simpa using this
  have hnd : ((s.reg.filter (fun p => p.2 == Status.running)).map
      Prod.fst).Nodup :=
    hk.sublist ((List.filter_sublist s.reg).map Prod.fst)
  cases hl : s.reg.filter (fun p => p.2 == Status.running) with
  | nil => simp
  | cons a t =>
    cases t with
    | nil => simp
    | cons b t2 =>
      exfalso
      have ha := hall a (by rw [hl]; simp)
      have hb := hall b (by rw [hl]; simp)
      have hab : a.1 = b.1 := Option.some.inj (ha.symm.trans hb)
      rw [hl] at hnd
      have := List.nodup_cons.mp hnd
      exact this.1 (by
        rw [hab]
        exact List.mem_map_of_mem Prod.fst (List.mem_cons_self b t2))

/-- Witness for C5 (amended): a reachable state with a settled extra entry
still has at most one running entry. -/
theorem atMostOneRunningWitness :
    ((stateAfter ([Event.start 0, Event.start 1,
      Event.settleErr 0 (Reason.user 7)] :
        List (Event Nat Nat))).reg.filter
          (fun p => p.2 == Status.running)).length ≤ 1 :=
  atMostOneRunning ⟨[Event.start 0, Event.start 1,
    Event.settleErr 0 (Reason.user 7)], rfl⟩

theorem regGet_step_not_running {V E : Type} (e : Event V E) {s : State V E}
    {h : Nat} (he : e ≠ Event.start h)
    (hnr : regGet s.reg h ≠ some Status.running) :
    regGet (step e s).reg h ≠ some Status.running := by
  cases e with
  | start h2 =>
    have hne : h ≠ h2 := by
      intro heq
      exact he (by rw [heq])
    cases hst : s.staleTask with
    | none =>
      have hreg : (step (Event.start h2) s).reg =
          regSet s.reg h2 Status.running := by
        simp [step, startStep, hst]
      rw [hreg, regGet_regSet_ne s.reg h2 h Status.running hne]
      exact hnr
    | some h0 =>
      have hreg : (step (Event.start h2) s).reg =
          regDelete (regSet s.reg h2 Status.running) h0 := by
        simp [step, startStep, hst]
      rw [hreg]
      by_cases hh0 : h = h0
      · rw [hh0, regGet_regDelete_self]
        simp
      · rw [regGet_regDelete_ne _ h0 h hh0,
          regGet_regSet_ne s.reg h2 h Status.running hne]
        exact hnr
  | requestAbort r =>
    show regGet (requestAbortStep r s).reg h ≠ some Status.running
    unfold requestAbortStep
    split
    · exact hnr
    next h2 hget =>
      split
      · show regGet (regSet s.reg h2 Status.aborted) h ≠ some Status.running
        by_cases hh : h = h2
        · rw [hh, regGet_regSet_self]
          simp
        · rw [regGet_regSet_ne s.reg h2 h Status.aborted hh]
          exact hnr
      · exact hnr
  | settleOk r v =>
    show regGet (settleOkStep r v s).reg h ≠ some Status.running
    unfold settleOkStep
    split
    · exact hnr
    next h2 hget =>
      split
      · exact hnr
      · exact hnr
      · show regGet (regSet s.reg h2 Status.fulfilled) h ≠ some Status.running
        by_cases hh : h = h2
        · rw [hh, regGet_regSet_self]
          simp
        · rw [regGet_regSet_ne s.reg h2 h Status.fulfilled hh]
          exact hnr
  | settleErr r reason =>
    show regGet (settleErrStep r reason s).reg h ≠ some Status.running
    unfold settleErrStep
    split
    · exact hnr
    next h2 hget =>
      split
      · exact hnr
      · exact hnr
      · show regGet (regSet s.reg h2 Status.rejected) h ≠ some Status.running
        by_cases hh : h = h2
        · rw [hh, regGet_regSet_self]
          simp
        · rw [regGet_regSet_ne s.reg h2 h Status.rejected hh]
          exact hnr

theorem regGet_steps_not_running {V E : Type} (evs : List (Event V E))
    {s : State V E} {h : Nat} (hev : Event.start h ∉ evs)
    (hnr : regGet s.reg h ≠ some Status.running) :
    regGet (steps s evs).reg h ≠ some Status.running := by
  induction evs generalizing s with
  | nil => exact hnr
  | cons e evs ih =>
    rw [steps_cons]
    refine ih (fun hmem => hev (List.mem_cons_of_mem e hmem)) ?_
    refine regGet_step_not_running e ?_ hnr
    intro heq
    exact hev (by rw [← heq]; exact List.mem_cons_self e evs)

/-- C4 counterexample: handle 0 is successfully aborted (snapshot aborted,
registry entry aborted), but after two further starts the last of which
re-registers the identity-equal handle 0 as running, a subsequent
requestAbort on a run with handle 0 is not a no-op: it fires again,
notifying once more.  This refutes the unconditional final clause that
every subsequent requestAbort on that handle is a no-op. -/
theorem abortNotIdempotent :
    (stateAfter ([Event.start 0, Event.requestAbort 0] :
      List (Event Nat Nat))).snapshot = Result.aborted ∧
    regGet (stateAfter ([Event.start 0, Event.requestAbort 0] :
      List (Event Nat Nat))).reg 0 = some Status.aborted ∧
    (stateAfter ([Event.start 0, Event.requestAbort 0, Event.start 1,
      Event.start 0] : List (Event Nat Nat))).runs.get? 2 = some 0 ∧
    requestAbortStep 2 (stateAfter ([Event.start 0, Event.requestAbort 0,
      Event.start 1, Event.start 0] : List (Event Nat Nat))) ≠
      stateAfter ([Event.start 0, Event.requestAbort 0, Event.start 1,
        Event.start 0] : List (Event Nat Nat)) ∧
    (requestAbortStep 2 (stateAfter ([Event.start 0, Event.requestAbort 0,
      Event.start 1, Event.start 0] : List (Event Nat Nat)))).notifyCount =
      (stateAfter ([Event.start 0, Event.requestAbort 0, Event.start 1,
        Event.start 0] : List (Event Nat Nat))).notifyCount + 1 := by
  decide

/-- C4 (amended): for any existing run, its requestAbort closure is a
complete no-op unless the captured handle registry status is running; when
it is running, the closure publishes the aborted snapshot, notifies exactly
once, triggers that run AbortController and leaves the handle registry
entry in place with status aborted, so a later checkpoint call on that same
run fails with Aborted rather than Invalidated; and every subsequent
requestAbort on a run carrying that handle is a no-op as long as no later
start re-registers the identity-equal handle (amendment: a later start with
the same task-function identity makes the handle running again, and
requestAbort then fires again, per the counterexample). -/
theorem abortSemantics {V E : Type} (s : State V E) (r h : Nat)
    (hget : s.runs.get? r = some h) :
    (regGet s.reg h ≠ some Status.running → requestAbortStep r s = s) ∧
    (regGet s.reg h = some Status.running →
      (requestAbortStep r s).snapshot = Result.aborted ∧
      (requestAbortStep r s).notifyCount = s.notifyCount + 1 ∧
      r ∈ (requestAbortStep r s).ctrlAborted ∧
      regGet (requestAbortStep r s).reg h = some Status.aborted ∧
      tickResult r (requestAbortStep r s) = some TickOutcome.aborted ∧
      (∀ evs, Event.start h ∉ evs → ∀ r2,
        (steps (requestAbortStep r s) evs).runs.get? r2 = some h →
        requestAbortStep r2 (steps (requestAbortStep r s) evs) =
          steps (requestAbortStep r s) evs)) := by
  refine ⟨requestAbortStep_skip hget, fun hrun => ?_⟩
  have hfires := requestAbortStep_fires hget hrun
  have hreg2 : regGet (requestAbortStep r s).reg h = some Status.aborted := by
    rw [hfires]
    exact regGet_regSet_self s.reg h Status.aborted
  have hmem : r ∈ (requestAbortStep r s).ctrlAborted := by
    rw [hfires]
    exact List.mem_cons_self r s.ctrlAborted
  refine ⟨by rw [hfires], by rw [hfires], hmem, hreg2, ?_, ?_⟩
  · have hget2 : (requestAbortStep r s).runs.get? r = some h := by
      rw [hfires]
      exact hget
    simp only [tickResult, hget2, hreg2]
  · intro evs hev r2 hget2
    refine requestAbortStep_skip hget2 ?_
    refine regGet_steps_not_running evs hev ?_
    rw [hreg2]
    simp

/-- Witness for C4 (amended): aborting the freshly started owning run
publishes aborted and a later checkpoint call on that run observes the
Aborted sentinel. -/
theorem abortSemanticsWitness :
    tickResult 0 (requestAbortStep 0 (stateAfter ([Event.start 0] :
      List (Event Nat Nat)))) = some TickOutcome.aborted :=
  ((abortSemantics (stateAfter [Event.start 0]) 0 0
    (by decide)).2 (by decide)).2.2.2.2.1

/-- C6: a start call publishes the running snapshot of the new run and
performs no notification; the very first start performs no eviction (the
registry is only extended with the new running entry) and no cancellation
trigger; every later start deletes the previous owner handle entry and no
other entry, triggers exactly the previous run AbortController, registers
the new handle as running (still visible afterwards whenever the new
handle differs from the evicted one), and the eviction is complete before
the new body runs: a checkpoint call by the superseded run in the
resulting state fails with Invalidated. -/
theorem startContract {V E : Type} (s : State V E) (h : Nat)
    (hs : Reachable s) :
    (startStep h s).snapshot = Result.running s.runs.length ∧
    (startStep h s).notifyCount = s.notifyCount ∧
    (s.runs = [] →
      (startStep h s).reg = regSet s.reg h Status.running ∧
      (startStep h s).ctrlAborted = s.ctrlAborted) ∧
    (∀ hprev, s.runs.getLast? = some hprev →
      regGet (startStep h s).reg hprev = none ∧
      (h ≠ hprev → regGet (startStep h s).reg h = some Status.running) ∧
      (∀ h2, h2 ≠ hprev → h2 ≠ h →
        regGet (startStep h s).reg h2 = regGet s.reg h2) ∧
      (s.runs.length - 1) ∈ (startStep h s).ctrlAborted ∧
      (∀ r2, r2 ∈ (startStep h s).ctrlAborted →
        r2 = s.runs.length - 1 ∨ r2 ∈ s.ctrlAborted) ∧
      tickResult (s.runs.length - 1) (startStep h s) =
        some TickOutcome.invalidated) := by
  obtain ⟨-, -, hr1, hr2, -⟩ := reachable_inv hs
  refine ⟨rfl, rfl, ?_, ?_⟩
  · intro hnil
    obtain ⟨hst, hsc⟩ := hr1 hnil
    constructor
    · simp [startStep, hst]
    · simp [startStep, hsc]
  · intro hprev hlast
    have hne : s.runs ≠ [] := by
      intro hnil
      rw [hnil] at hlast
      simp at hlast
    obtain ⟨hst0, hsc⟩ := hr2 hne
    have hst : s.staleTask = some hprev := by rw [hst0, hlast]
    have hreg : (startStep h s).reg =
        regDelete (regSet s.reg h Status.running) hprev := by
      simp [startStep, hst]
    have hctrl : (startStep h s).ctrlAborted =
        (s.runs.length - 1) :: s.ctrlAborted := by
      simp [startStep, hsc]
    have hlen : s.runs.length - 1 < s.runs.length :=
      Nat.sub_lt (List.length_pos.mpr hne) Nat.one_pos
    have hget1 : (startStep h s).runs.get? (s.runs.length - 1) =
        some hprev := by
      show (s.runs ++ [h]).get? (s.runs.length - 1) = some hprev
      rw [List.get?_append hlen, ← List.getLast?_eq_get?]
      exact hlast
    have hregprev : regGet (startStep h s).reg hprev = none := by
      rw [hreg]
      exact regGet_regDelete_self _ hprev
    refine ⟨hregprev, ?_, ?_, ?_, ?_, ?_⟩
    · intro hneq
      rw [hreg, regGet_regDelete_ne _ hprev h hneq, regGet_regSet_self]
    · intro h2 h2p h2h
      rw [hreg, regGet_regDelete_ne _ hprev h2 h2p,
        regGet_regSet_ne s.reg h h2 Status.running h2h]
    · rw [hctrl]
      exact List.mem_cons_self _ _
    · intro r2 hr2m
      rw [hctrl] at hr2m
      exact List.mem_cons.mp hr2m
    · simp only [tickResult, hget1, hregprev]

/-- Witness for C6: restarting after one completed start leaves the
superseded run checkpoint observing Invalidated. -/
theorem startContractWitness :
    tickResult 0 (startStep 7 (stateAfter ([Event.start 3] :
      List (Event Nat Nat)))) = some TickOutcome.invalidated :=
  ((startContract (stateAfter [Event.start 3]) 7
    ⟨[Event.start 3], rfl⟩).2.2.2 3 (by decide)).2.2.2.2.2

/-- C8: in every reachable state, a run AbortController aborted flag is set
exactly when that run was evicted by a subsequent start or its own abort
closure fired while its handle was registered with status running (the
history fields evicted and abortFired record precisely those two events,
at index.ts lines 188 and 122-128 respectively); and the first start of a
lineage triggers no AbortController at all, so its own signal starts
unaborted. -/
theorem signalRoundTrip {V E : Type} {s : State V E} (hs : Reachable s) :
    (∀ r, r ∈ s.ctrlAborted ↔ (r ∈ s.evicted ∨ r ∈ s.abortFired)) ∧
    (∀ h, (startStep h (initState (V := V) (E := E))).ctrlAborted = []) :=
  ⟨(reachable_inv hs).2.2.2.2, fun _ => rfl⟩

/-- Witness for C8: after two starts the first run flag is set and is
accounted for by its eviction. -/
theorem signalRoundTripWitness :
    0 ∈ (stateAfter ([Event.start 0, Event.start 1] :
      List (Event Nat Nat))).ctrlAborted ↔
    (0 ∈ (stateAfter ([Event.start 0, Event.start 1] :
      List (Event Nat Nat))).evicted ∨
     0 ∈ (stateAfter ([Event.start 0, Event.start 1] :
      List (Event Nat Nat))).abortFired) :=
  (signalRoundTrip ⟨[Event.start 0, Event.start 1], rfl⟩).1 0

/-- C9: start inserts the new running entry before deleting the previous
owner entry and the registry is keyed by task-function identity; hence a
restart whose task handle is identity-equal to the previous run handle
deletes the entry just inserted: when the registry held only entries for
that handle, the resulting registry is empty, the new run first checkpoint
call already fails with Invalidated, and its successful settlement is
discarded with no snapshot update and no notification. -/
theorem selfHandleRestart {V E : Type} (s : State V E) (h : Nat)
    (hst : s.staleTask = some h) (hall : ∀ p ∈ s.reg, p.1 = h) :
    (startStep h s).reg = [] ∧
    tickResult s.runs.length (startStep h s) = some TickOutcome.invalidated ∧
    (∀ v : V, settleOkStep s.runs.length v (startStep h s) = startStep h s) := by
  have hreg : (startStep h s).reg = [] := by
    have hd : (startStep h s).reg =
        regDelete (regSet s.reg h Status.running) h := by
      simp [startStep, hst]
    rw [hd]
    unfold regDelete regSet
    rw [List.filter_append]
    have hfil : s.reg.filter (fun p => p.1 != h) = [] := by
      rw [List.filter_eq_nil]
      intro p hp
      simp [hall p hp]
    rw [hfil]
    simp

  have hget : (startStep h s).runs.get? s.runs.length = some h :=
    List.get?_concat_length s.runs h
  have hnone : regGet (startStep h s).reg h = none := by
    rw [hreg]
    rfl
  refine ⟨hreg, ?_, ?_⟩
  · simp only [tickResult, hget, hnone]
  · intro v
    exact settleOkStep_discard v hget (Or.inl hnone)

/-- Witness for C9: restarting with the identity-equal handle 5 empties the
registry and the new run checkpoint immediately observes Invalidated. -/
theorem selfHandleRestartWitness :
    (startStep 5 (stateAfter ([Event.start 5] :
      List (Event Nat Nat)))).reg = [] ∧
    tickResult 1 (startStep 5 (stateAfter ([Event.start 5] :
      List (Event Nat Nat)))) = some TickOutcome.invalidated :=
  ⟨(selfHandleRestart (stateAfter [Event.start 5]) 5
      (by decide) (by decide)).1,
   (selfHandleRestart (stateAfter [Event.start 5]) 5
      (by decide) (by decide)).2.1⟩

/-- C10: the abort closure carried by a running snapshot is bound to the
handle of the run that published it; once that run has been superseded by
a later start with a distinct handle, invoking the stale closure changes
nothing at all: the registry, the published snapshot, the notify count and
every AbortController of the resulting state are left unchanged. -/
theorem staleAbortFrame {V E : Type} (s : State V E) (r hr h2 : Nat)
    (hget : s.runs.get? r = some hr) (hst : s.staleTask = some hr)
    (hne : h2 ≠ hr) :
    requestAbortStep r (startStep h2 s) = startStep h2 s := by
  have hlt : r < s.runs.length := by
    by_contra hge
    push_neg at hge
    rw [List.get?_eq_none.mpr hge] at hget
    cases hget
  have hget2 : (startStep h2 s).runs.get? r = some hr := by
    show (s.runs ++ [h2]).get? r = some hr
    rw [List.get?_append hlt]
    exact hget
  have hreg : regGet (startStep h2 s).reg hr = none := by
    have hd : (startStep h2 s).reg =
        regDelete (regSet s.reg h2 Status.running) hr := by
      simp [startStep, hst]
    rw [hd]
    exact regGet_regDelete_self _ hr
  refine requestAbortStep_skip hget2 ?_
  rw [hreg]
  simp

/-- Witness for C10: the run of handle 4 is superseded by a start of
handle 9; its stale abort closure is then a complete no-op. -/
theorem staleAbortFrameWitness :
    requestAbortStep 0 (startStep 9 (stateAfter ([Event.start 4] :
      List (Event Nat Nat)))) = startStep 9 (stateAfter ([Event.start 4] :
      List (Event Nat Nat))) :=
  staleAbortFrame (stateAfter [Event.start 4]) 0 4 9 (by decide) (by decide)
    (by decide)

end UseAwait
